import Mathlib

/-
Verification of `script/run_vunit.py` against its specification.

The script is straight-line code with no branches: it constructs a VUnit
context from the process arguments, registers one library, adds two file
globs to it, and calls the framework entry point.  We embed it as the ordered
list of calls it issues to the external framework, and model the framework's
documented reaction (library registry, glob resolution, exit code) from the
specification, since the framework itself is not part of this repository.
-/

/-- A single call that `script/run_vunit.py` issues to the external VUnit
framework.  The script is straight-line code, so its whole behaviour is the
ordered list of such calls. -/
inductive FrameworkCall where
  | fromArgv (args : List String)
  | addLibrary (name : String)
  | addSourceFiles (lib : String) (pat : String)
  | main
deriving DecidableEq, Repr

/-- The library name the script registers (`vu.add_library("lib")`). -/
def libName : String := "lib"

/-- The design-source glob pattern (`lib.add_source_files("../src/design/*.vhd")`). -/
def designPat : String := "../src/design/*.vhd"

/-- The test-source glob pattern (`lib.add_source_files("../src/test/*.vhd")`). -/
def testPat : String := "../src/test/*.vhd"

/-- Shallow embedding of the module body of `script/run_vunit.py`:
`VUnit.from_argv()`, `vu.add_library("lib")`, the two `add_source_files`
calls, then `vu.main()`, in source order. -/
def runScript (args : List String) : List FrameworkCall :=
  [FrameworkCall.fromArgv args,
   FrameworkCall.addLibrary libName,
   FrameworkCall.addSourceFiles libName designPat,
   FrameworkCall.addSourceFiles libName testPat,
   FrameworkCall.main]

/-- Split a list of characters at a separator character, accumulating the
current component in reverse; used to view paths and glob patterns as lists
of components. -/
def splitOnCharAux (sep : Char) : List Char → List Char → List String
  | [], acc => [String.mk acc.reverse]
  | c :: cs, acc =>
    if c = sep then String.mk acc.reverse :: splitOnCharAux sep cs []
    else splitOnCharAux sep cs (c :: acc)

/-- View a path or glob pattern string as its list of `/`-separated
components. -/
def splitPath (s : String) : List String := splitOnCharAux '/' s.data []

/-- Does the string `suf` end the string `s`? (Character-list version of a
suffix test, kept executable for concrete evaluation.) -/
def dataEndsWith (suf s : String) : Bool := List.isSuffixOf suf.data s.data

/-- Does the string `pre` start the string `s`? -/
def dataStartsWith (pre s : String) : Bool := List.isPrefixOf pre.data s.data

/-- Modelled from the spec: match one path component against a glob component
split at its `*` wildcard.  Per the spec's glossary a glob is "a filesystem
path expression with wildcards used to select a set of matching files": a
literal component must match exactly, and `l*r` matches a name that starts
with `l`, ends with `r`, is long enough for both, and — Python glob's
hidden-file rule — does not start with a dot unless the pattern part before
the `*` does. -/
def matchParts : List String → String → Bool
  | [lit], name => decide (name = lit)
  | [l, r], name =>
      decide (l.data.length + r.data.length ≤ name.data.length) &&
      dataStartsWith l name && dataEndsWith r name &&
      !(dataStartsWith "." name && !(dataStartsWith "." l))
  | _, _ => false

/-- Modelled from the spec: match one path component against a glob component
holding at most one `*` wildcard. -/
def matchComponent (pat name : String) : Bool :=
  matchParts (splitOnCharAux '*' pat.data []) name

/-- Match a full path against a resolved glob pattern, both as component
lists: same number of components, matched pointwise.  A `*` never matches
across a `/`, so a pattern with three components never matches a file deeper
in the tree. -/
def matchPath : List String → List String → Bool
  | [], [] => true
  | p :: ps, n :: ns => matchComponent p n && matchPath ps ns
  | _, _ => false

/-- Resolve `..` components lexically: a `..` removes the component before
it.  `normalizeAux stack rest` processes `rest` against the already-resolved
`stack` (held in reverse). -/
def normalizeAux : List String → List String → List String
  | stack, [] => stack.reverse
  | stack, c :: cs =>
    if c = ".." then normalizeAux stack.tail cs
    else normalizeAux (c :: stack) cs

/-- Resolve the `..` components of a component path. -/
def normalizePath (p : List String) : List String := normalizeAux [] p

/-- Modelled from the spec: "two glob patterns, each resolved relative to the
script's directory".  The directory holding `run_vunit.py`, as a component
path from the repository root. -/
def scriptDir : List String := ["script"]

/-- Modelled from the spec: the external framework resolves a glob pattern
against the base directory and keeps the matching files of the filesystem, in
filesystem order.  A filesystem is a finite list of file paths, each a list
of components from the repository root. -/
def globResolve (base : List String) (pat : String)
    (fsys : List (List String)) : List (List String) :=
  fsys.filter (fun p => matchPath (normalizePath (base ++ splitPath pat)) p)

/-- The directory a glob pattern denotes once resolved against the script's
directory: the resolved pattern without its final (wildcard) component. -/
def resolvedDir (pat : String) : List String :=
  (normalizePath (scriptDir ++ splitPath pat)).dropLast

/-- The outcome the external framework reports from `vu.main()`. -/
inductive RunResult where
  | passed
  | failed
  | internalError
deriving DecidableEq, Repr

/-- Modelled from the spec: "Exit code: propagated from the external
framework's run result (0 success, non-zero on any test failure or internal
error)". -/
def frameworkExitCode : RunResult → Nat
  | RunResult.passed => 0
  | RunResult.failed => 1
  | RunResult.internalError => 2

/-- Modelled from the spec: the externally-owned state the script's calls act
on — the arguments consumed by the framework's parser, the registry of
libraries (name and registered files, in registration order), and the exit
code once `main` has run. -/
structure VUnitState where
  argv : Option (List String)
  libs : List (String × List (List String))
  exitCode : Option Nat
deriving DecidableEq, Repr

/-- The framework state before the script issues any call. -/
def initialState : VUnitState := { argv := none, libs := [], exitCode := none }

/-- Append files to every registry entry of the given name
(`add_source_files` on a library handle). -/
def addToLib (n : String) (new : List (List String)) :
    List (String × List (List String)) → List (String × List (List String))
  | [] => []
  | (m, fs) :: rest =>
    (if m = n then (m, fs ++ new) else (m, fs)) :: addToLib n new rest

/-- Look up the files registered under a library name. -/
def lookupLib (n : String) :
    List (String × List (List String)) → Option (List (List String))
  | [] => none
  | (m, fs) :: rest => if m = n then some fs else lookupLib n rest

/-- Modelled from the spec: the framework's reaction to one call of the
script, for a fixed filesystem, resolution base and run outcome:
`from_argv` records the arguments, `add_library` appends an empty library,
`add_source_files` appends the glob's matches to the named library, and
`main` produces the exit code. -/
def stepCall (base : List String) (fsys : List (List String)) (r : RunResult)
    (s : VUnitState) : FrameworkCall → VUnitState
  | FrameworkCall.fromArgv args => { s with argv := some args }
  | FrameworkCall.addLibrary n => { s with libs := s.libs ++ [(n, [])] }
  | FrameworkCall.addSourceFiles n pat =>
      { s with libs := addToLib n (globResolve base pat fsys) s.libs }
  | FrameworkCall.main => { s with exitCode := some (frameworkExitCode r) }

/-- Run a list of framework calls from a state. -/
def execCalls (base : List String) (fsys : List (List String)) (r : RunResult) :
    VUnitState → List FrameworkCall → VUnitState
  | s, [] => s
  | s, c :: cs => execCalls base fsys r (stepCall base fsys r s c) cs

/-- The whole run of the script on given arguments, filesystem and framework
outcome: interpret the call trace from the initial framework state, with
globs resolved against the script's directory. -/
def execScript (args : List String) (fsys : List (List String))
    (r : RunResult) : VUnitState :=
  execCalls scriptDir fsys r initialState (runScript args)

/-- The files registered under a library name after a run (empty when the
library does not exist). -/
def registeredFiles (s : VUnitState) (n : String) : List (List String) :=
  (lookupLib n s.libs).getD []

/-- Modelled from the spec: a run in which a framework call may raise an
exception (`raises c = some e`).  The script installs no handler, performs no
retries and no recovery, so the first raising call aborts the remaining calls
and the exception escapes unchanged. -/
def execCallsExc (raises : FrameworkCall → Option String) (base : List String)
    (fsys : List (List String)) (r : RunResult) :
    VUnitState → List FrameworkCall → Except String VUnitState
  | s, [] => Except.ok s
  | s, c :: cs =>
    match raises c with
    | some e => Except.error e
    | none => execCallsExc raises base fsys r (stepCall base fsys r s c) cs

/-- The whole run of the script when framework calls may raise. -/
def execScriptExc (raises : FrameworkCall → Option String) (args : List String)
    (fsys : List (List String)) (r : RunResult) : Except String VUnitState :=
  execCallsExc raises scriptDir fsys r initialState (runScript args)

/-- Modelled from the spec: the process exit status — the framework's code on
a completed run, and the runtime's non-zero status when an exception escapes
uncaught ("terminating the process with a non-zero status"). -/
def processExitStatus : Except String VUnitState → Nat
  | Except.error _ => 1
  | Except.ok s => (s.exitCode).getD 0

/-- Is the call a library registration? -/
def isAddLibraryCall : FrameworkCall → Bool
  | FrameworkCall.addLibrary _ => true
  | _ => false

/-- The glob pattern of an `add_source_files` call, when it is one. -/
def callPattern : FrameworkCall → Option String
  | FrameworkCall.addSourceFiles _ p => some p
  | _ => none

/-- The registered contents of the single library after any run: the design
glob's matches followed by the test glob's matches. -/
theorem lib_files_eq_append (args : List String) (fsys : List (List String))
    (r : RunResult) :
    registeredFiles (execScript args fsys r) "lib" =
      globResolve scriptDir designPat fsys ++ globResolve scriptDir testPat fsys := rfl

/-- The library registry after any run holds the single entry "lib". -/
theorem libs_eq_single (args : List String) (fsys : List (List String))
    (r : RunResult) :
    (execScript args fsys r).libs =
      [("lib", globResolve scriptDir designPat fsys ++
        globResolve scriptDir testPat fsys)] := rfl

/-- C1: every execution performs exactly these framework calls in this order:
construct the runner context from the process arguments, register the single
library "lib", add the design-source glob, add the test-source glob, and hand
control to the framework entry point; the trace holds nothing else. -/
theorem c1_exact_call_sequence (args : List String) :
    runScript args =
      [FrameworkCall.fromArgv args,
       FrameworkCall.addLibrary "lib",
       FrameworkCall.addSourceFiles "lib" "../src/design/*.vhd",
       FrameworkCall.addSourceFiles "lib" "../src/test/*.vhd",
       FrameworkCall.main] := rfl

/-- C3: the exit code of a completed run is exactly the framework's run
result: the script hands the framework's code through unchanged, and that
code is 0 precisely when the framework reports all tests passed, non-zero on
a test failure or internal error. -/
theorem c3_exit_code_propagated (args : List String) (fsys : List (List String))
    (r : RunResult) :
    (execScript args fsys r).exitCode = some (frameworkExitCode r) ∧
    processExitStatus (execScriptExc (fun _ => none) args fsys r) =
      frameworkExitCode r ∧
    (frameworkExitCode r = 0 ↔ r = RunResult.passed) := by
  refine ⟨rfl, rfl, ?_⟩
  cases r <;> simp [frameworkExitCode]

/-- C6: the script defines no command-line flags of its own: the process
arguments reach the framework's parser verbatim as the very first call, the
rest of the trace does not depend on them, and the framework state records
them unchanged. -/
theorem c6_args_delegated (args : List String) (fsys : List (List String))
    (r : RunResult) :
    (runScript args).head? = some (FrameworkCall.fromArgv args) ∧
    (runScript args).tail = (runScript []).tail ∧
    (execScript args fsys r).argv = some args :=
  ⟨rfl, rfl, rfl⟩

/-- C8: exactly one library is created and its name is "lib"; every file
registration in the trace targets that library, and after execution the
registry holds exactly the one library named "lib". -/
theorem c8_single_library (args : List String) (fsys : List (List String))
    (r : RunResult) :
    (runScript args).filter isAddLibraryCall = [FrameworkCall.addLibrary "lib"] ∧
    (∀ n p, FrameworkCall.addSourceFiles n p ∈ runScript args → n = "lib") ∧
    (execScript args fsys r).libs.map Prod.fst = ["lib"] := by
  refine ⟨rfl, ?_, rfl⟩
  intro n p h
  simp only [runScript, List.mem_cons, List.not_mem_nil, or_false] at h
  rcases h with h | h | h | h | h
  · exact FrameworkCall.noConfusion h
  · exact FrameworkCall.noConfusion h
  · injection h with h1 h2
  · injection h with h1 h2
  · exact FrameworkCall.noConfusion h

/-- C10: determinism — two runs with identical process arguments and
identical filesystem contents issue the identical call sequence and produce
the identical framework state. -/
theorem c10_deterministic (a1 a2 : List String) (f1 f2 : List (List String))
    (r : RunResult) (ha : a1 = a2) (hf : f1 = f2) :
    runScript a1 = runScript a2 ∧ execScript a1 f1 r = execScript a2 f2 r := by
  subst ha; subst hf; exact ⟨rfl, rfl⟩

/-- Witness for C10 at concrete inputs. -/
theorem c10_deterministic_witness :
    runScript ["run_vunit.py"] = runScript ["run_vunit.py"] ∧
    execScript ["run_vunit.py"] [["src", "design", "a.vhd"]] RunResult.passed =
      execScript ["run_vunit.py"] [["src", "design", "a.vhd"]] RunResult.passed :=
  c10_deterministic ["run_vunit.py"] ["run_vunit.py"]
    [["src", "design", "a.vhd"]] [["src", "design", "a.vhd"]]
    RunResult.passed rfl rfl

/-- C2: in every invocation where at least one of the two globs matches no
files, the script raises nothing of its own and performs no validation: the
run still completes with the framework's exit code, the single library still
exists, and its contents are exactly what the framework defines — the
matches of the two globs, so the other glob's matches when one is empty, and
the empty library when both are. -/
theorem c2_empty_globs_no_error (args : List String) (fsys : List (List String))
    (r : RunResult)
    (h : globResolve scriptDir designPat fsys = [] ∨
         globResolve scriptDir testPat fsys = []) :
    (execScript args fsys r).exitCode = some (frameworkExitCode r) ∧
    (execScript args fsys r).libs.map Prod.fst = ["lib"] ∧
    registeredFiles (execScript args fsys r) "lib" =
      globResolve scriptDir designPat fsys ++ globResolve scriptDir testPat fsys ∧
    (globResolve scriptDir designPat fsys = [] →
      registeredFiles (execScript args fsys r) "lib" =
        globResolve scriptDir testPat fsys) ∧
    (globResolve scriptDir testPat fsys = [] →
      registeredFiles (execScript args fsys r) "lib" =
        globResolve scriptDir designPat fsys) ∧
    (globResolve scriptDir designPat fsys = [] ∧
        globResolve scriptDir testPat fsys = [] →
      (execScript args fsys r).libs = [("lib", [])]) := by
  refine ⟨rfl, rfl, lib_files_eq_append args fsys r, ?_, ?_, ?_⟩
  · intro hd
    rw [lib_files_eq_append, hd]
    rfl
  · intro ht
    rw [lib_files_eq_append, ht, List.append_nil]
  · rintro ⟨hd, ht⟩
    rw [libs_eq_single, hd, ht]
    rfl

/-- Witness for C2: a filesystem holding one test source and no design
source leaves the design glob empty; the run completes with the framework's
exit code and the library holds exactly the test glob's matches. -/
theorem c2_empty_globs_no_error_witness :
    (execScript ["run_vunit.py"] [["src", "test", "b.vhd"]]
      RunResult.passed).exitCode = some (frameworkExitCode RunResult.passed) ∧
    (execScript ["run_vunit.py"] [["src", "test", "b.vhd"]]
      RunResult.passed).libs.map Prod.fst = ["lib"] ∧
    registeredFiles
      (execScript ["run_vunit.py"] [["src", "test", "b.vhd"]] RunResult.passed)
      "lib" =
      globResolve scriptDir designPat [["src", "test", "b.vhd"]] ++
        globResolve scriptDir testPat [["src", "test", "b.vhd"]] ∧
    (globResolve scriptDir designPat [["src", "test", "b.vhd"]] = [] →
      registeredFiles
        (execScript ["run_vunit.py"] [["src", "test", "b.vhd"]]
          RunResult.passed) "lib" =
        globResolve scriptDir testPat [["src", "test", "b.vhd"]]) ∧
    (globResolve scriptDir testPat [["src", "test", "b.vhd"]] = [] →
      registeredFiles
        (execScript ["run_vunit.py"] [["src", "test", "b.vhd"]]
          RunResult.passed) "lib" =
        globResolve scriptDir designPat [["src", "test", "b.vhd"]]) ∧
    (globResolve scriptDir designPat [["src", "test", "b.vhd"]] = [] ∧
        globResolve scriptDir testPat [["src", "test", "b.vhd"]] = [] →
      (execScript ["run_vunit.py"] [["src", "test", "b.vhd"]]
        RunResult.passed).libs = [("lib", [])]) :=
  c2_empty_globs_no_error ["run_vunit.py"] [["src", "test", "b.vhd"]]
    RunResult.passed (Or.inl (by decide))

/-- C4: the registration calls carry exactly the two fixed glob patterns, and
resolved against the script's directory (as the spec prescribes) they denote
the design directory and the test directory — two distinct directories under
the same parent, i.e. siblings, placed relative to the script's location. -/
theorem c4_sibling_directories (args : List String) :
    (runScript args).filterMap callPattern = [designPat, testPat] ∧
    resolvedDir designPat = ["src", "design"] ∧
    resolvedDir testPat = ["src", "test"] ∧
    resolvedDir designPat ≠ resolvedDir testPat ∧
    (resolvedDir designPat).dropLast = (resolvedDir testPat).dropLast :=
  ⟨rfl, by decide, by decide, by decide, by decide⟩

/-- C5: when each glob matches at least one file, a path is registered in the
library exactly when it is matched by the design glob or by the test glob:
the registered set is the union of the two match sets. -/
theorem c5_registered_union (args : List String) (fsys : List (List String))
    (r : RunResult)
    (hd : globResolve scriptDir designPat fsys ≠ [])
    (ht : globResolve scriptDir testPat fsys ≠ []) :
    ∀ p, p ∈ registeredFiles (execScript args fsys r) "lib" ↔
      (p ∈ globResolve scriptDir designPat fsys ∨
       p ∈ globResolve scriptDir testPat fsys) := by
  intro p
  rw [lib_files_eq_append]
  exact List.mem_append

/-- Witness for C5: with one design file and one test file present, the
design file is registered, via the design glob. -/
theorem c5_registered_union_witness :
    (["src", "design", "a.vhd"] ∈
      registeredFiles
        (execScript ["run_vunit.py"]
          [["src", "design", "a.vhd"], ["src", "test", "b.vhd"]]
          RunResult.passed) "lib") ↔
      (["src", "design", "a.vhd"] ∈
        globResolve scriptDir designPat
          [["src", "design", "a.vhd"], ["src", "test", "b.vhd"]] ∨
       ["src", "design", "a.vhd"] ∈
        globResolve scriptDir testPat
          [["src", "design", "a.vhd"], ["src", "test", "b.vhd"]]) :=
  c5_registered_union ["run_vunit.py"]
    [["src", "design", "a.vhd"], ["src", "test", "b.vhd"]]
    RunResult.passed (by decide) (by decide) ["src", "design", "a.vhd"]

/-- If some call of a list raises, running the list from any state yields
`Except.error` with the exception of the first raising call, unchanged. -/
theorem execCallsExc_error (raises : FrameworkCall → Option String)
    (base : List String) (fsys : List (List String)) (r : RunResult) :
    ∀ (l : List FrameworkCall) (s : VUnitState),
      (∃ c ∈ l, (raises c).isSome) →
      ∃ e, execCallsExc raises base fsys r s l = Except.error e ∧
        ∃ c ∈ l, raises c = some e := by
  intro l
  induction l with
  | nil =>
    intro s h
    simp at h
  | cons c cs ih =>
    intro s h
    cases hc : raises c with
    | some e =>
      refine ⟨e, ?_, c, List.mem_cons_self c cs, hc⟩
      simp [execCallsExc, hc]
    | none =>
      have h2 : ∃ d ∈ cs, (raises d).isSome := by
        rcases h with ⟨d, hd, hds⟩
        rcases List.mem_cons.mp hd with rfl | hmem
        · rw [hc] at hds
          simp at hds
        · exact ⟨d, hmem, hds⟩
      rcases ih (stepCall base fsys r s c) h2 with ⟨e, he, d, hd, hde⟩
      refine ⟨e, ?_, d, List.mem_cons_of_mem c hd, hde⟩
      simpa [execCallsExc, hc] using he

/-- C7: the script catches nothing and performs no retries or recovery: if
any framework call raises, the raised exception escapes the script unchanged
as the run's result, and the process status is non-zero. -/
theorem c7_uncaught_propagation (raises : FrameworkCall → Option String)
    (args : List String) (fsys : List (List String)) (r : RunResult)
    (h : ∃ c ∈ runScript args, (raises c).isSome) :
    ∃ e, execScriptExc raises args fsys r = Except.error e ∧
      (∃ c ∈ runScript args, raises c = some e) ∧
      processExitStatus (execScriptExc raises args fsys r) ≠ 0 := by
  rcases execCallsExc_error raises scriptDir fsys r (runScript args)
    initialState h with ⟨e, he, hc⟩
  have he2 : execScriptExc raises args fsys r = Except.error e := he
  refine ⟨e, he2, hc, ?_⟩
  rw [he2]
  simp [processExitStatus]

/-- Witness for C7: a run in which the design-glob registration raises an
OSError ends in that error and a non-zero status. -/
theorem c7_uncaught_propagation_witness :
    ∃ e, execScriptExc
        (fun c => match c with
          | FrameworkCall.addSourceFiles _ _ => some "OSError"
          | _ => none)
        ["run_vunit.py"] [] RunResult.passed = Except.error e ∧
      (∃ c ∈ runScript ["run_vunit.py"],
        (fun c => match c with
          | FrameworkCall.addSourceFiles _ _ => some "OSError"
          | _ => none) c = some e) ∧
      processExitStatus
        (execScriptExc
          (fun c => match c with
            | FrameworkCall.addSourceFiles _ _ => some "OSError"
            | _ => none)
          ["run_vunit.py"] [] RunResult.passed) ≠ 0 :=
  c7_uncaught_propagation
    (fun c => match c with
      | FrameworkCall.addSourceFiles _ _ => some "OSError"
      | _ => none)
    ["run_vunit.py"] [] RunResult.passed (by decide)

/-- A literal glob component (no wildcard) only matches itself. -/
theorem matchComponent_lit_eq (lit x : String)
    (hs : splitOnCharAux '*' lit.data [] = [lit])
    (h : matchComponent lit x = true) : x = lit := by
  rw [matchComponent, hs] at h
  have h2 : decide (x = lit) = true := h
  exact of_decide_eq_true h2

/-- A name matched by the wildcard component of the script's globs ends in
the extension ".vhd". -/
theorem matchComponent_star_ends (x : String)
    (h : matchComponent "*.vhd" x = true) : dataEndsWith ".vhd" x = true := by
  have e : splitOnCharAux '*' ("*.vhd").data [] = ["", ".vhd"] := by decide
  rw [matchComponent, e] at h
  have h2 : (decide (("").data.length + (".vhd").data.length ≤ x.data.length) &&
      dataStartsWith "" x && dataEndsWith ".vhd" x &&
      !(dataStartsWith "." x && !(dataStartsWith "." ""))) = true := h
  simp only [Bool.and_eq_true] at h2
  exact h2.1.2

/-- A path matched by a three-component pattern ending in the wildcard has
exactly three components, matched pointwise. -/
theorem matchPath_three (a b : String) (p : List String)
    (h : matchPath [a, b, "*.vhd"] p = true) :
    ∃ x y n, p = [x, y, n] ∧ matchComponent a x = true ∧
      matchComponent b y = true ∧ matchComponent "*.vhd" n = true := by
  match p with
  | [] => simp [matchPath] at h
  | [x] => simp [matchPath] at h
  | [x, y] => simp [matchPath] at h
  | [x, y, n] =>
    simp only [matchPath, Bool.and_eq_true] at h
    exact ⟨x, y, n, rfl, h.1, h.2.1, h.2.2.1⟩
  | x :: y :: n :: z :: rest => simp [matchPath] at h

/-- The design glob, resolved against the script's directory. -/
theorem design_resolved :
    normalizePath (scriptDir ++ splitPath designPat) =
      ["src", "design", "*.vhd"] := by decide

/-- The test glob, resolved against the script's directory. -/
theorem test_resolved :
    normalizePath (scriptDir ++ splitPath testPat) =
      ["src", "test", "*.vhd"] := by decide

/-- C9: every registered file lies directly in the resolved design directory
or the resolved test directory and its name ends in ".vhd"; a file deeper in
a subdirectory (more path components) or with another extension is never
registered. -/
theorem c9_only_vhd_directly (args : List String) (fsys : List (List String))
    (r : RunResult) (p : List String)
    (h : p ∈ registeredFiles (execScript args fsys r) "lib") :
    ∃ dir n, p = dir ++ [n] ∧
      (dir = ["src", "design"] ∨ dir = ["src", "test"]) ∧
      dataEndsWith ".vhd" n = true := by
  rw [lib_files_eq_append] at h
  rcases List.mem_append.mp h with hm | hm
  · simp only [globResolve, design_resolved] at hm
    have hp := (List.mem_filter.mp hm).2
    rcases matchPath_three "src" "design" p hp with ⟨x, y, n, rfl, hx, hy, hn⟩
    have ex : x = "src" := matchComponent_lit_eq "src" x (by decide) hx
    have ey : y = "design" := matchComponent_lit_eq "design" y (by decide) hy
    subst ex
    subst ey
    exact ⟨["src", "design"], n, rfl, Or.inl rfl, matchComponent_star_ends n hn⟩
  · simp only [globResolve, test_resolved] at hm
    have hp := (List.mem_filter.mp hm).2
    rcases matchPath_three "src" "test" p hp with ⟨x, y, n, rfl, hx, hy, hn⟩
    have ex : x = "src" := matchComponent_lit_eq "src" x (by decide) hx
    have ey : y = "test" := matchComponent_lit_eq "test" y (by decide) hy
    subst ex
    subst ey
    exact ⟨["src", "test"], n, rfl, Or.inr rfl, matchComponent_star_ends n hn⟩

/-- Witness for C9: the registered design file has the stated shape. -/
theorem c9_only_vhd_directly_witness :
    ∃ dir n, (["src", "design", "top.vhd"] : List String) = dir ++ [n] ∧
      (dir = ["src", "design"] ∨ dir = ["src", "test"]) ∧
      dataEndsWith ".vhd" n = true :=
  c9_only_vhd_directly ["run_vunit.py"] [["src", "design", "top.vhd"]]
    RunResult.passed ["src", "design", "top.vhd"] (by decide)
